import Mathlib

/-!
Verification development for the jd-kit template-sync engine.

This file shallowly embeds the core of the repository:
- `src/cli/utils/template-engine.ts` (class `TemplateEngine`): variable
  substitution over `{{WORD}}` tokens via
  `template.replace(/\{\{(\w+)\}\}/g, (match, key) => this.variables[key] || match)`;
- `src/cli/utils/file-tracker.ts` (class `FileTracker`): the persisted sync
  ledger (`.claude/.toolkit-meta.json`) with `read`, `write`, `track`,
  `isModified`, `updateHash`;
- `src/cli/commands/sync.ts` (`syncClaudeCommands`): the per-template
  reconciliation loop and the family-final variables write.

Modelling conventions:
- The filesystem is an association list from path to text content; an absent
  key models a missing file.
- The persisted ledger file is modelled by `MetaStore`: `absent` (no file),
  `corrupt` (a file whose payload does not parse as JSON), or
  `stored m` (a file whose payload parses to the meta object `m`).
- The SHA-256 digest (`hashContent` in `src/cli/utils/hash.ts`, a call into
  Node's crypto library) is an external primitive; every definition and
  theorem is parametric in an arbitrary digest function
  `hashContent : String → String`.
- Interactive prompts (inquirer) are modelled by caller-supplied data: the
  conflict-resolution prompt is a function from template name to `Choice`,
  and the variable-collection prompt is a pre-supplied variable list.
- JavaScript object indexing `variables[key]` is modelled as finite-map
  lookup (`alookup`); object key assignment is `setEntry`.
- The regex scan of `String.replace` with the global pattern
  `\{\{(\w+)\}\}` is embedded as the scanner `renderGo`: at each position it
  attempts to match a literal `{{`, a nonempty greedy run of word characters
  and a literal `}}`; on success it emits the replacement and continues
  after the match, on failure it emits one character and retries at the
  next position, exactly as the JS regex engine advances.  Because the word
  class contains no brace, the greedy run never needs backtracking, so this
  scanner computes the same result as the regex.  The `Nat` fuel argument
  (instantiated with the input length, which bounds the number of scan
  positions) makes the recursion structural so the kernel can evaluate it.
-/

/-- Word character of the JS regex class `\w`: ASCII letters, digits, `_`. -/
def isWordChar (c : Char) : Bool :=
  c.isAlpha || c.isDigit || c = '_'

/-- Lookup in an association list, modelling JS object indexing `obj[key]`. -/
def alookup {β : Type} : List (String × β) → String → Option β
  | [], _ => none
  | (k, v) :: rest, key => if k = key then some v else alookup rest key

/-- Key assignment `obj[key] = val` on a JS object modelled as an association
list: replaces the entry in place if the key exists, else appends it. -/
def setEntry {β : Type} : List (String × β) → String → β → List (String × β)
  | [], key, val => [(key, val)]
  | (k, v) :: rest, key, val =>
    if k = key then (key, val) :: rest else (k, v) :: setEntry rest key val

/-- The literal text of the token `{{w}}`, as the regex matched it. -/
def tokenOf (w : List Char) : List Char :=
  '{' :: '{' :: (w ++ '}' :: '}' :: [])

/-- The replacement callback `(match, key) => this.variables[key] || match`
of `TemplateEngine.render`: the token is replaced by the variable's value
only when the value is truthy in JS, i.e. present and not the empty string;
otherwise the whole match is emitted verbatim. -/
def applyVar (vars : List (String × String)) (w : List Char) : List Char :=
  match alookup vars (String.mk w) with
  | some v => if v = "" then tokenOf w else v.data
  | none => tokenOf w

/-- One pass of `template.replace(/\{\{(\w+)\}\}/g, cb)`.  The fuel bounds
the number of scan positions; callers pass the input length. -/
def renderGo (vars : List (String × String)) : Nat → List Char → List Char
  | _, [] => []
  | 0, c :: cs => c :: cs
  | fuel + 1, c :: cs =>
    if c = '{' then
      match cs with
      | [] => [c]
      | c2 :: cs2 =>
        if c2 = '{' then
          let w := cs2.takeWhile isWordChar
          match cs2.dropWhile isWordChar with
          | '}' :: '}' :: rest =>
            if w.isEmpty then c :: renderGo vars fuel cs
            else applyVar vars w ++ renderGo vars fuel rest
          | _ => c :: renderGo vars fuel cs
        else c :: renderGo vars fuel cs
    else c :: renderGo vars fuel cs

/-- Scanner companion of `renderGo` over the same branch structure: decides
whether the input contains a token that `renderGo` would actually replace
(a `{{WORD}}` whose variable is present with a nonempty value). -/
def hasGo (vars : List (String × String)) : Nat → List Char → Bool
  | _, [] => false
  | 0, _ :: _ => false
  | fuel + 1, c :: cs =>
    if c = '{' then
      match cs with
      | [] => false
      | c2 :: cs2 =>
        if c2 = '{' then
          let w := cs2.takeWhile isWordChar
          match cs2.dropWhile isWordChar with
          | '}' :: '}' :: rest =>
            if w.isEmpty then hasGo vars fuel cs
            else
              (match alookup vars (String.mk w) with
               | some v => !(v = "")
               | none => false) || hasGo vars fuel rest
          | _ => hasGo vars fuel cs
        else hasGo vars fuel cs
    else hasGo vars fuel cs

/-- Character-list form of `TemplateEngine.render`. -/
def renderChars (vars : List (String × String)) (l : List Char) : List Char :=
  renderGo vars l.length l

namespace TemplateEngine

/-- Embedding of `TemplateEngine.render` (template-engine.ts, lines 7-12). -/
def render (vars : List (String × String)) (template : String) : String :=
  String.mk (renderChars vars template.data)

/-- True when the text contains a `{{WORD}}` token that `render` would
substitute (WORD present in the variable map with a nonempty value). -/
def hasResolvableToken (vars : List (String × String)) (s : String) : Bool :=
  hasGo vars s.data.length s.data

end TemplateEngine

/-- Constant `TOOLKIT_VERSION` of file-tracker.ts. -/
def TOOLKIT_VERSION : String := "1.0.0"

/-- Interface `TrackedFile` of file-tracker.ts: one ledger record. -/
structure TrackedFile where
  version : String
  hash : String
  modified : Bool
  lastSync : String
deriving DecidableEq, Repr

/-- Interface `ToolkitMeta` of file-tracker.ts: the whole sync ledger. -/
structure ToolkitMeta where
  version : String
  synced : List (String × TrackedFile)
  vars : List (String × String)
deriving DecidableEq, Repr

/-- State of the persisted ledger file `.claude/.toolkit-meta.json`:
missing, present but unparsable, or present with a parsed meta object. -/
inductive MetaStore where
  | absent
  | corrupt
  | stored (meta : ToolkitMeta)
deriving DecidableEq, Repr

/-- The world the sync engine acts on: the project filesystem (path to text
content) together with the persisted ledger file, kept separate because
`FileTracker` reads the ledger through a JSON parse. -/
structure SyncState where
  files : List (String × String)
  store : MetaStore
deriving DecidableEq, Repr

namespace FileTracker

/-- Embedding of `FileTracker.read` (file-tracker.ts, lines 43-61): a missing
ledger file and any read/parse failure both yield a fresh empty meta; a
parsable payload is returned as is.  The return type is total: there is no
error outcome. -/
def read : MetaStore → ToolkitMeta
  | .absent => ⟨TOOLKIT_VERSION, [], []⟩
  | .corrupt => ⟨TOOLKIT_VERSION, [], []⟩
  | .stored meta => meta

/-- Embedding of `FileTracker.write` (lines 63-66): serializes the full meta
object over whatever the ledger file held before. -/
def write (st : SyncState) (meta : ToolkitMeta) : SyncState :=
  { st with store := .stored meta }

/-- Embedding of `FileTracker.track` (lines 68-77): read, replace the entry
for the file with a fresh record fingerprinting the given content, write. -/
def track (now : String) (hashContent : String → String)
    (st : SyncState) (file content : String) : SyncState :=
  let meta := read st.store
  write st { meta with
    synced := setEntry meta.synced file ⟨TOOLKIT_VERSION, hashContent content, false, now⟩ }

/-- Embedding of `FileTracker.isModified` (lines 79-91): false when the path
has no ledger entry; false when the destination file does not exist;
otherwise compares the digest of the current content with the stored one. -/
def isModified (hashContent : String → String) (st : SyncState) (file : String) : Bool :=
  let meta := read st.store
  match alookup meta.synced file with
  | none => false
  | some tracked =>
    match alookup st.files file with
    | none => false
    | some currentContent => hashContent currentContent != tracked.hash

/-- Embedding of `FileTracker.updateHash` (lines 93-104).  When the path has
an entry, the code unconditionally reads the destination file
(`fs.readFile`), which throws when the file is missing; that error outcome
is the `Except.error` branch. -/
def updateHash (now : String) (hashContent : String → String)
    (st : SyncState) (file : String) : Except String SyncState :=
  let meta := read st.store
  match alookup meta.synced file with
  | none => .ok st
  | some tracked =>
    match alookup st.files file with
    | none => .error "ENOENT"
    | some currentContent =>
      .ok (write st { meta with
        synced := setEntry meta.synced file
          { tracked with hash := hashContent currentContent, modified := false, lastSync := now } })

end FileTracker

/-- The three conflict-resolution choices of `promptOverwrite` (sync.ts,
lines 67-82). -/
inductive Choice where
  | skip
  | overwrite
  | backup
deriving DecidableEq, Repr

/-- Whether the loop counted the template as synced or skipped. -/
inductive StepOutcome where
  | syncedFile
  | skippedFile
deriving DecidableEq, Repr

/-- Result of processing one candidate template: the new world state, the
reported outcome, and whether the conflict-resolution prompt was shown. -/
structure StepResult where
  state : SyncState
  outcome : StepOutcome
  prompted : Bool
deriving DecidableEq, Repr

/-- Destination path for a Claude command template (sync.ts, line 129). -/
def outputPathFor (template : String) : String :=
  ".claude/commands/" ++ template

/-- The render-write-track tail of the loop body (sync.ts, lines 154-160):
`engine.renderFile` renders the template and writes the destination, then
the freshly written destination is read back and passed to `tracker.track`. -/
def renderAndTrack (now : String) (hashContent : String → String)
    (vars : List (String × String)) (st : SyncState)
    (templateContent outputPath : String) : SyncState :=
  let rendered := TemplateEngine.render vars templateContent
  let st1 : SyncState := { st with files := setEntry st.files outputPath rendered }
  match alookup st1.files outputPath with
  | some written => FileTracker.track now hashContent st1 outputPath written
  | none => st1

/-- One iteration of the template loop of `syncClaudeCommands` (sync.ts,
lines 128-164), for the candidate named `template` whose source text is
`templateContent`. -/
def syncStep (now : String) (hashContent : String → String)
    (vars : List (String × String)) (promptOverwrite : String → Choice)
    (update : Bool) (st : SyncState) (template templateContent : String) : StepResult :=
  let outputPath := outputPathFor template
  match alookup st.files outputPath with
  | none => ⟨renderAndTrack now hashContent vars st templateContent outputPath, .syncedFile, false⟩
  | some current =>
    if update then
      if FileTracker.isModified hashContent st outputPath then
        match promptOverwrite template with
        | .skip => ⟨st, .skippedFile, true⟩
        | .overwrite =>
          ⟨renderAndTrack now hashContent vars st templateContent outputPath, .syncedFile, true⟩
        | .backup =>
          let backed : SyncState :=
            { st with files := setEntry st.files (outputPath ++ ".backup") current }
          ⟨renderAndTrack now hashContent vars backed templateContent outputPath, .syncedFile, true⟩
      else ⟨renderAndTrack now hashContent vars st templateContent outputPath, .syncedFile, false⟩
    else ⟨st, .skippedFile, false⟩

/-- Embedding of `syncClaudeCommands` (sync.ts, lines 84-176) for a given
list of (template name, template source text) candidates.  `meta` is read
once up front (line 86); the variable set is the stored one, or the prompted
one when the stored set is empty (lines 89-98); each candidate runs through
`syncStep`; finally the variables are stored into the *initially read* meta
object, which is then written back (lines 166-168). -/
def syncClaudeCommands (now : String) (hashContent : String → String)
    (promptedVariables : List (String × String)) (promptOverwrite : String → Choice)
    (update : Bool) (templates : List (String × String)) (st0 : SyncState) : SyncState :=
  let meta := FileTracker.read st0.store
  let vars := if meta.vars.isEmpty then promptedVariables else meta.vars
  let stLoop := templates.foldl
    (fun st t => (syncStep now hashContent vars promptOverwrite update st t.1 t.2).state)
    st0
  FileTracker.write stLoop { meta with vars := vars }

/-! ## Helper lemmas -/

theorem alookup_setEntry_self {β : Type} (l : List (String × β)) (k : String) (v : β) :
    alookup (setEntry l k v) k = some v := by
  induction l with
  | nil => simp [setEntry, alookup]
  | cons hd tl ih =>
    obtain ⟨k', v'⟩ := hd
    by_cases h : k' = k
    · simp [setEntry, alookup, h]
    · simp [setEntry, alookup, h, ih]

theorem alookup_setEntry_ne {β : Type} (l : List (String × β)) (k k' : String) (v : β)
    (h : k ≠ k') : alookup (setEntry l k v) k' = alookup l k' := by
  induction l with
  | nil => simp [setEntry, alookup, h]
  | cons hd tl ih =>
    obtain ⟨k0, v0⟩ := hd
    by_cases h0 : k0 = k
    · subst h0
      simp [setEntry, alookup, h]
    · simp [setEntry, alookup, h0, ih]

theorem string_data_append (a b : String) : (a ++ b).data = a.data ++ b.data := by
  cases a
  cases b
  rfl

theorem append_backup_ne (s : String) : s ≠ s ++ ".backup" := by
  intro h
  have hlen : s.data.length = s.data.length + 7 := by
    conv_lhs => rw [h]
    rw [string_data_append]
    simp [String.data]
  omega

theorem takeWhile_all_append (p : Char → Bool) (w r : List Char)
    (hw : w.all p = true) : (w ++ r).takeWhile p = w ++ r.takeWhile p := by
  induction w with
  | nil => simp
  | cons c cs ih =>
    simp only [List.all_cons, Bool.and_eq_true] at hw
    simp [List.takeWhile, hw.1, ih hw.2]

theorem dropWhile_all_append (p : Char → Bool) (w r : List Char)
    (hw : w.all p = true) : (w ++ r).dropWhile p = r.dropWhile p := by
  induction w with
  | nil => simp
  | cons c cs ih =>
    simp only [List.all_cons, Bool.and_eq_true] at hw
    simp [List.dropWhile, hw.1, ih hw.2]

theorem takeWhile_dropWhile_eq (p : Char → Bool) (l : List Char) :
    l.takeWhile p ++ l.dropWhile p = l :=
  List.takeWhile_append_dropWhile p l

theorem dropWhile_length_decompose (p : Char → Bool) (l : List Char) :
    l.length = (l.takeWhile p).length + (l.dropWhile p).length := by
  rw [← List.length_append, List.takeWhile_append_dropWhile]

theorem renderGo_fuel (vars : List (String × String)) :
    ∀ (f1 f2 : Nat) (l : List Char), l.length ≤ f1 → l.length ≤ f2 →
      renderGo vars f1 l = renderGo vars f2 l := by
  intro f1
  induction f1 with
  | zero =>
    intro f2 l h1 h2
    have hl : l = [] := by
      cases l with
      | nil => rfl
      | cons c cs => simp at h1
    subst hl
    cases f2 <;> rfl
  | succ n ih =>
    intro f2 l h1 h2
    cases l with
    | nil => cases f2 <;> rfl
    | cons c cs =>
      cases f2 with
      | zero => simp at h2
      | succ m =>
        have hcs1 : cs.length ≤ n := by simp at h1; omega
        have hcs2 : cs.length ≤ m := by simp at h2; omega
        simp only [renderGo]
        by_cases hc : c = '{'
        · simp only [hc, if_pos rfl, if_true]
          cases cs with
          | nil => rfl
          | cons c2 cs2 =>
            by_cases hc2 : c2 = '{'
            · simp only [hc2, if_pos rfl, if_true]
              have hsplit := dropWhile_length_decompose isWordChar cs2
              rcases hdw : cs2.dropWhile isWordChar with _ | ⟨a, _ | ⟨b, rest⟩⟩
              · simp only [hdw]
                rw [ih m ('{' :: cs2) (by simp at hcs1 ⊢; omega) (by simp at hcs2 ⊢; omega)]
              · simp only [hdw]
                rw [ih m ('{' :: cs2) (by simp at hcs1 ⊢; omega) (by simp at hcs2 ⊢; omega)]
              · have hrest : rest.length + 2 ≤ cs2.length := by
                  rw [hsplit, hdw]
                  simp only [List.length_cons]
                  omega
                split
                · rename_i x rest2 heq
                  have hr2 : rest2 = rest := by
                    injection heq with e1 e2
                    injection e2 with e3 e4
                    exact e4.symm
                  rw [hr2]
                  split
                  · rw [ih m ('{' :: cs2) (by simp at hcs1 ⊢; omega) (by simp at hcs2 ⊢; omega)]
                  · rw [ih m rest (by simp at hcs1; omega) (by simp at hcs2; omega)]
                · rw [ih m ('{' :: cs2) (by simp at hcs1 ⊢; omega) (by simp at hcs2 ⊢; omega)]
            · simp only [if_neg hc2]
              rw [ih m (c2 :: cs2) hcs1 hcs2]
        · simp only [if_neg hc]
          rw [ih m cs hcs1 hcs2]

theorem isEmpty_false_of_ne_nil (w : List Char) (hw : w ≠ []) : w.isEmpty = false := by
  cases w with
  | nil => exact absurd rfl hw
  | cons a t => rfl

theorem applyVar_unresolved (vars : List (String × String)) (w : List Char)
    (h : alookup vars (String.mk w) = none ∨ alookup vars (String.mk w) = some "") :
    applyVar vars w = tokenOf w := by
  unfold applyVar
  rcases h with h | h
  · rw [h]
  · rw [h]
    simp

theorem renderChars_char (vars : List (String × String)) (c : Char) (rest : List Char)
    (hc : c ≠ '{') : renderChars vars (c :: rest) = c :: renderChars vars rest := by
  unfold renderChars
  simp only [List.length_cons]
  simp only [renderGo]
  rw [if_neg hc]

theorem renderChars_token (vars : List (String × String)) (w rest : List Char)
    (hw : w ≠ []) (hall : w.all isWordChar = true) :
    renderChars vars (tokenOf w ++ rest) = applyVar vars w ++ renderChars vars rest := by
  have htk : isWordChar '}' = false := by decide
  have hshape : tokenOf w ++ rest = '{' :: '{' :: (w ++ '}' :: '}' :: rest) := by
    simp [tokenOf]
  have htake : (w ++ '}' :: '}' :: rest).takeWhile isWordChar = w := by
    rw [takeWhile_all_append isWordChar w _ hall]
    simp [List.takeWhile, htk]
  have hdrop : (w ++ '}' :: '}' :: rest).dropWhile isWordChar = '}' :: '}' :: rest := by
    rw [dropWhile_all_append isWordChar w _ hall]
    simp [List.dropWhile, htk]
  unfold renderChars
  rw [hshape]
  simp only [List.length_cons]
  simp only [renderGo]
  rw [htake, hdrop]
  simp only [isEmpty_false_of_ne_nil w hw, if_pos rfl, Bool.false_eq_true, if_false]
  rw [renderGo_fuel vars ((w ++ '}' :: '}' :: rest).length + 1) rest.length rest
    (by simp [List.length_append]; omega) (Nat.le_refl _)]
  simp

theorem renderGo_id_of_not_has (vars : List (String × String)) :
    ∀ (fuel : Nat) (l : List Char), l.length ≤ fuel →
      hasGo vars fuel l = false → renderGo vars fuel l = l := by
  intro fuel
  induction fuel with
  | zero =>
    intro l h1 _
    have hl : l = [] := by
      cases l with
      | nil => rfl
      | cons c cs => simp at h1
    subst hl
    rfl
  | succ n ih =>
    intro l h1 hhas
    cases l with
    | nil => rfl
    | cons c cs =>
      have hcs1 : cs.length ≤ n := by simp at h1; omega
      by_cases hc : c = '{'
      · subst hc
        cases cs with
        | nil => rfl
        | cons c2 cs2 =>
          by_cases hc2 : c2 = '{'
          · subst hc2
            have hsplit := dropWhile_length_decompose isWordChar cs2
            simp only [renderGo]
            simp only [hasGo] at hhas
            simp only [eq_self_iff_true, if_true] at hhas ⊢
            rcases hdw : cs2.dropWhile isWordChar with _ | ⟨a, _ | ⟨b, rest⟩⟩
            · rw [hdw] at hhas
              rw [ih ('{' :: cs2) (by simp at hcs1 ⊢; omega) hhas]
            · rw [hdw] at hhas
              split at hhas
              · rename_i x rest2 heq
                exact absurd heq (by simp)
              · rw [ih ('{' :: cs2) (by simp at hcs1 ⊢; omega) hhas]
            · split at hhas
              · rename_i x rest2 heq
                rw [hdw] at heq
                rw [heq]
                have hr2 : rest2.length + 2 ≤ cs2.length := by
                  rw [hsplit, hdw, heq]
                  simp only [List.length_cons]
                  omega
                by_cases hwE : (cs2.takeWhile isWordChar).isEmpty
                · simp only [hwE, if_true] at hhas ⊢
                  rw [ih ('{' :: cs2) (by simp at hcs1 ⊢; omega) hhas]
                · simp only [hwE, Bool.false_eq_true, if_false] at hhas ⊢
                  rw [Bool.or_eq_false_iff] at hhas
                  obtain ⟨hres, hrest2⟩ := hhas
                  have hunres : alookup vars (String.mk (cs2.takeWhile isWordChar)) = none ∨
                      alookup vars (String.mk (cs2.takeWhile isWordChar)) = some "" := by
                    rcases hl : alookup vars (String.mk (cs2.takeWhile isWordChar)) with _ | v
                    · exact Or.inl rfl
                    · right
                      rw [hl] at hres
                      simp at hres
                      rw [hres]
                  rw [applyVar_unresolved vars _ hunres]
                  rw [ih rest2 (by simp at hcs1; omega) hrest2]
                  have hcs2eq : cs2 = cs2.takeWhile isWordChar ++ '}' :: '}' :: rest2 := by
                    conv_lhs => rw [← takeWhile_dropWhile_eq isWordChar cs2]
                    rw [hdw, heq]
                  conv_rhs => rw [hcs2eq]
                  simp [tokenOf]
              · rename_i hne
                split
                · rename_i x rest3 heq3
                  exact absurd (show List.dropWhile isWordChar cs2 = '}' :: '}' :: rest3 from by
                    rw [hdw]
                    exact heq3) (fun h => hne rest3 h)
                · rw [ih ('{' :: cs2) (by simp at hcs1 ⊢; omega) hhas]
          · simp only [renderGo]
            simp only [hasGo] at hhas
            simp only [eq_self_iff_true, if_true, if_neg hc2] at hhas ⊢
            rw [ih (c2 :: cs2) hcs1 hhas]
      · simp only [renderGo]
        simp only [hasGo] at hhas
        simp only [if_neg hc] at hhas ⊢
        rw [ih cs hcs1 hhas]

-- Sanity examples for the scanner (spec section 8 test vectors).
example : TemplateEngine.render [("MONOREPO_ROOT", ".")] "Root: {{MONOREPO_ROOT}}" = "Root: ." := by decide
example : TemplateEngine.render [] "Hello {{UNKNOWN}}" = "Hello {{UNKNOWN}}" := by decide
example : TemplateEngine.render [("A", "x")] "\x7b{{A}}" = "\x7bx" := by decide
example : TemplateEngine.render [("A", "x")] "\x7b\x7bA\x7db" = "\x7b\x7bA\x7db" := by decide
example : TemplateEngine.render [("A", "A")] "{{{{A}}}}" = "{{A}}" := by decide

/-! ## Claim C2: token substitution -/

/-- Claim C2 (counterexample): the claim says a `{{WORD}}` token is replaced
whenever WORD is present as a key of the variable map.  The code uses
`variables[key] || match`, so a key whose value is the empty string (falsy
in JS) is NOT replaced: `render("Hello {{A}}", {A: ""})` keeps the token
verbatim instead of producing `"Hello "`. -/
theorem render_present_empty_value_not_replaced :
    alookup [("A", "")] "A" = some "" ∧
    TemplateEngine.render [("A", "")] "Hello {{A}}" = "Hello {{A}}" ∧
    "Hello {{A}}" ≠ ("Hello " : String) := by
  refine ⟨by decide, by decide, by decide⟩

/-- Claim C2 (amended): `render` replaces each `{{WORD}}` token (WORD a
nonempty run of word characters) with `variables[WORD]` whenever WORD is
present with a nonempty value; a token whose name is absent, or present
with the empty-string value, is left verbatim; every character that does
not begin a token is passed through unchanged. -/
theorem render_token_substitution (vars : List (String × String)) :
    (∀ (w rest : List Char), w ≠ [] → w.all isWordChar = true →
      (∀ v, alookup vars (String.mk w) = some v → v ≠ "" →
        renderChars vars (tokenOf w ++ rest) = v.data ++ renderChars vars rest) ∧
      (alookup vars (String.mk w) = none ∨ alookup vars (String.mk w) = some "" →
        renderChars vars (tokenOf w ++ rest) = tokenOf w ++ renderChars vars rest)) ∧
    (∀ (c : Char) (rest : List Char), c ≠ '{' →
      renderChars vars (c :: rest) = c :: renderChars vars rest) := by
  constructor
  · intro w rest hw hall
    constructor
    · intro v hv hne
      rw [renderChars_token vars w rest hw hall]
      unfold applyVar
      rw [hv]
      simp [hne]
    · intro hun
      rw [renderChars_token vars w rest hw hall, applyVar_unresolved vars w hun]
  · intro c rest hc
    exact renderChars_char vars c rest hc

/-- Witness for the amended C2 theorem at concrete inputs. -/
theorem render_token_substitution_witness :
    renderChars [("NAME", "world")] (tokenOf ['N', 'A', 'M', 'E'] ++ ['!']) =
      ("world" : String).data ++ renderChars [("NAME", "world")] ['!'] ∧
    renderChars [("NAME", "world")] (tokenOf ['B'] ++ []) =
      tokenOf ['B'] ++ renderChars [("NAME", "world")] [] ∧
    renderChars [("NAME", "world")] ('x' :: []) = 'x' :: renderChars [("NAME", "world")] [] :=
  ⟨((render_token_substitution [("NAME", "world")]).1 ['N', 'A', 'M', 'E'] ['!']
      (by decide) (by decide)).1 "world" (by decide) (by decide),
   ((render_token_substitution [("NAME", "world")]).1 ['B'] []
      (by decide) (by decide)).2 (Or.inl (by decide)),
   (render_token_substitution [("NAME", "world")]).2 'x' [] (by decide)⟩

/-! ## Claim C3: idempotence of rendering -/

/-- Claim C3 (counterexample): re-rendering the output with the same
variable map is not always a no-op.  A substituted value may itself form a
token: with variables A = "{{B}}" and B = "x", rendering "{{A}}" yields
"{{B}}" and rendering again yields "x". -/
theorem render_not_idempotent :
    TemplateEngine.render [("A", "{{B}}"), ("B", "x")]
        (TemplateEngine.render [("A", "{{B}}"), ("B", "x")] "{{A}}") ≠
      TemplateEngine.render [("A", "{{B}}"), ("B", "x")] "{{A}}" := by decide

/-- Claim C3 (amended): re-rendering the output of `render` with the same
variable map is a no-op provided the first output contains no token whose
variable is present with a nonempty value (no resolvable token); in general
substituted values, or braces adjacent to a token, can form new tokens that
a second render substitutes. -/
theorem render_idempotent_of_no_resolvable (vars : List (String × String)) (s : String)
    (h : TemplateEngine.hasResolvableToken vars (TemplateEngine.render vars s) = false) :
    TemplateEngine.render vars (TemplateEngine.render vars s) = TemplateEngine.render vars s := by
  unfold TemplateEngine.render at h ⊢
  unfold TemplateEngine.hasResolvableToken at h
  exact congrArg String.mk (renderGo_id_of_not_has vars _ _ (Nat.le_refl _) h)

/-- Witness for the amended C3 theorem: "x {{B}}" has no resolvable token
left, so re-rendering is a no-op. -/
theorem render_idempotent_of_no_resolvable_witness :
    TemplateEngine.render [("A", "x")] (TemplateEngine.render [("A", "x")] "{{A}} {{B}}") =
      TemplateEngine.render [("A", "x")] "{{A}} {{B}}" :=
  render_idempotent_of_no_resolvable [("A", "x")] "{{A}} {{B}}" (by decide)

/-! ## Claim C5: read never fails -/

/-- Claim C5: `FileTracker.read` is a total function (its type has no error
outcome), and both a missing ledger file and an unparsable one yield the
fresh empty ledger: current schema version, no entries, no variables. -/
theorem read_missing_or_unparsable_gives_empty :
    FileTracker.read MetaStore.absent = ⟨TOOLKIT_VERSION, [], []⟩ ∧
    FileTracker.read MetaStore.corrupt = ⟨TOOLKIT_VERSION, [], []⟩ :=
  ⟨rfl, rfl⟩

/-! ## Claim C6: isModified contract -/

/-- Claim C6: `isModified` returns false when the ledger has no entry for
the path; false when the destination file does not exist; otherwise exactly
the comparison of the current content's digest with the stored fingerprint.
The stored `modified` flag is never consulted: flipping it in the stored
entry leaves the result unchanged. -/
theorem isModified_spec (hashContent : String → String) (s : SyncState) (p : String) :
    (alookup (FileTracker.read s.store).synced p = none →
      FileTracker.isModified hashContent s p = false) ∧
    (alookup s.files p = none → FileTracker.isModified hashContent s p = false) ∧
    (∀ e c, alookup (FileTracker.read s.store).synced p = some e →
      alookup s.files p = some c →
      FileTracker.isModified hashContent s p = (hashContent c != e.hash)) ∧
    (∀ m e b, s.store = MetaStore.stored m → alookup m.synced p = some e →
      FileTracker.isModified hashContent
          ⟨s.files, MetaStore.stored
            { m with synced := setEntry m.synced p { e with modified := b } }⟩ p
        = FileTracker.isModified hashContent s p) := by
  refine ⟨?_, ?_, ?_, ?_⟩
  · intro h
    simp [FileTracker.isModified, h]
  · intro h
    unfold FileTracker.isModified
    rcases he : alookup (FileTracker.read s.store).synced p with _ | e
    · simp [he]
    · simp [he, h]
  · intro e c he hc
    simp [FileTracker.isModified, he, hc]
  · intro m e b hs he
    unfold FileTracker.isModified
    simp only [hs, FileTracker.read, alookup_setEntry_self, he]

/-- Witness for C6 at concrete inputs: entry fingerprint "old", current
content "new", identity digest. -/
theorem isModified_spec_witness :
    FileTracker.isModified (fun s => s)
        ⟨[("f", "new")], MetaStore.stored ⟨"1.0.0", [("f", ⟨"1.0.0", "old", false, "t"⟩)], []⟩⟩
        "f" = ("new" != "old") :=
  (isModified_spec (fun s => s)
      ⟨[("f", "new")], MetaStore.stored ⟨"1.0.0", [("f", ⟨"1.0.0", "old", false, "t"⟩)], []⟩⟩
      "f").2.2.1 ⟨"1.0.0", "old", false, "t"⟩ "new" (by decide) (by decide)

/-! ## Claim C10: updateHash on an untracked path -/

/-- Claim C10: calling `updateHash` on a path that has no ledger entry
returns immediately with the state unchanged and no error; in particular it
does not read the destination file (the theorem covers states where that
file is absent, in which case a read would fail). -/
theorem updateHash_untracked_noop (now : String) (hashContent : String → String)
    (st : SyncState) (file : String)
    (h : alookup (FileTracker.read st.store).synced file = none) :
    FileTracker.updateHash now hashContent st file = Except.ok st := by
  unfold FileTracker.updateHash
  simp [h]

/-- Witness for C10: empty ledger, destination file absent. -/
theorem updateHash_untracked_noop_witness :
    FileTracker.updateHash "2024-01-01T00:00:00.000Z" (fun s => s)
        ⟨[], MetaStore.absent⟩ "a.txt" = Except.ok ⟨[], MetaStore.absent⟩ :=
  updateHash_untracked_noop "2024-01-01T00:00:00.000Z" (fun s => s)
    ⟨[], MetaStore.absent⟩ "a.txt" (by decide)

/-! ## Sync-engine helper lemmas -/

theorem isModified_false_of_untracked (hashContent : String → String) (st : SyncState)
    (p : String) (h : alookup (FileTracker.read st.store).synced p = none) :
    FileTracker.isModified hashContent st p = false := by
  simp [FileTracker.isModified, h]

theorem renderAndTrack_eq (now : String) (hashContent : String → String)
    (vars : List (String × String)) (st : SyncState) (templateContent outputPath : String) :
    renderAndTrack now hashContent vars st templateContent outputPath =
      ⟨setEntry st.files outputPath (TemplateEngine.render vars templateContent),
       MetaStore.stored
         { FileTracker.read st.store with
             synced := setEntry (FileTracker.read st.store).synced outputPath
               ⟨TOOLKIT_VERSION,
                hashContent (TemplateEngine.render vars templateContent), false, now⟩ }⟩ := by
  simp only [renderAndTrack, FileTracker.track, FileTracker.write, alookup_setEntry_self]

/-! ## Claim C7: no-update skip -/

/-- Claim C7: when the destination file exists and no update was requested,
the candidate is skipped outright, regardless of the ledger state: the
whole world state is returned unchanged (destination content and ledger
entry included) and no prompt is shown. -/
theorem syncStep_no_update_skips (now : String) (hashContent : String → String)
    (vars : List (String × String)) (promptOverwrite : String → Choice)
    (st : SyncState) (template templateContent current : String)
    (hFile : alookup st.files (outputPathFor template) = some current) :
    syncStep now hashContent vars promptOverwrite false st template templateContent =
      ⟨st, StepOutcome.skippedFile, false⟩ := by
  unfold syncStep
  simp only [hFile]
  rfl

/-- Witness for C7 at concrete inputs: the destination exists and is even
tracked as modified, yet without the update flag it is left untouched. -/
theorem syncStep_no_update_skips_witness :
    syncStep "t" (fun s => s) [] (fun _ => Choice.skip) false
        ⟨[(".claude/commands/a.md", "keep")], MetaStore.absent⟩ "a.md" "tpl" =
      ⟨⟨[(".claude/commands/a.md", "keep")], MetaStore.absent⟩, StepOutcome.skippedFile, false⟩ :=
  syncStep_no_update_skips "t" (fun s => s) [] (fun _ => Choice.skip)
    ⟨[(".claude/commands/a.md", "keep")], MetaStore.absent⟩ "a.md" "tpl" "keep" (by decide)

/-! ## Claim C4: update of an existing but untracked destination -/

/-- Claim C4: in an update run, a destination that exists on disk but has
no ledger entry is treated as not modified: no conflict prompt is shown,
the file is re-rendered and overwritten, and the path is tracked with the
fingerprint of the rendered content. -/
theorem syncStep_untracked_existing_update (now : String) (hashContent : String → String)
    (vars : List (String × String)) (promptOverwrite : String → Choice)
    (st : SyncState) (template templateContent current : String)
    (hFile : alookup st.files (outputPathFor template) = some current)
    (hEntry : alookup (FileTracker.read st.store).synced (outputPathFor template) = none) :
    (syncStep now hashContent vars promptOverwrite true st template templateContent).prompted
        = false ∧
    (syncStep now hashContent vars promptOverwrite true st template templateContent).outcome
        = StepOutcome.syncedFile ∧
    alookup (syncStep now hashContent vars promptOverwrite true st
        template templateContent).state.files (outputPathFor template)
        = some (TemplateEngine.render vars templateContent) ∧
    alookup (FileTracker.read (syncStep now hashContent vars promptOverwrite true st
        template templateContent).state.store).synced (outputPathFor template)
        = some ⟨TOOLKIT_VERSION,
            hashContent (TemplateEngine.render vars templateContent), false, now⟩ := by
  have hmod := isModified_false_of_untracked hashContent st (outputPathFor template) hEntry
  unfold syncStep
  simp only [hFile, hmod]
  rw [renderAndTrack_eq]
  refine ⟨rfl, rfl, ?_, ?_⟩
  · simp [alookup_setEntry_self]
  · simp [FileTracker.read, alookup_setEntry_self]

/-- Witness for C4: destination holds "OLD", the ledger is absent, an
update run overwrites it with the rendered template and tracks it. -/
theorem syncStep_untracked_existing_update_witness :
    (syncStep "T" (fun s => s) [("NAME", "world")] (fun _ => Choice.skip) true
        ⟨[(".claude/commands/a.md", "OLD")], MetaStore.absent⟩ "a.md" "Hi {{NAME}}").prompted
        = false ∧
    (syncStep "T" (fun s => s) [("NAME", "world")] (fun _ => Choice.skip) true
        ⟨[(".claude/commands/a.md", "OLD")], MetaStore.absent⟩ "a.md" "Hi {{NAME}}").outcome
        = StepOutcome.syncedFile ∧
    alookup (syncStep "T" (fun s => s) [("NAME", "world")] (fun _ => Choice.skip) true
        ⟨[(".claude/commands/a.md", "OLD")], MetaStore.absent⟩ "a.md"
        "Hi {{NAME}}").state.files (outputPathFor "a.md")
        = some (TemplateEngine.render [("NAME", "world")] "Hi {{NAME}}") ∧
    alookup (FileTracker.read (syncStep "T" (fun s => s) [("NAME", "world")]
        (fun _ => Choice.skip) true ⟨[(".claude/commands/a.md", "OLD")], MetaStore.absent⟩
        "a.md" "Hi {{NAME}}").state.store).synced (outputPathFor "a.md")
        = some ⟨TOOLKIT_VERSION,
            (fun s => s) (TemplateEngine.render [("NAME", "world")] "Hi {{NAME}}"), false, "T"⟩ :=
  syncStep_untracked_existing_update "T" (fun s => s) [("NAME", "world")]
    (fun _ => Choice.skip) ⟨[(".claude/commands/a.md", "OLD")], MetaStore.absent⟩
    "a.md" "Hi {{NAME}}" "OLD" (by decide) (by decide)

/-! ## Claim C8: modified destination, backup decision -/

/-- Claim C8: when a tracked destination is classified as modified and the
caller chooses backup, the current (locally modified) destination content
is copied verbatim to the path with literal suffix ".backup" (overwriting
any previous entry at that path, since the theorem covers arbitrary states),
and the destination then holds the freshly rendered template content. -/
theorem syncStep_modified_backup (now : String) (hashContent : String → String)
    (vars : List (String × String)) (promptOverwrite : String → Choice)
    (st : SyncState) (template templateContent current : String)
    (hFile : alookup st.files (outputPathFor template) = some current)
    (hMod : FileTracker.isModified hashContent st (outputPathFor template) = true)
    (hChoice : promptOverwrite template = Choice.backup) :
    alookup (syncStep now hashContent vars promptOverwrite true st
        template templateContent).state.files (outputPathFor template ++ ".backup")
        = some current ∧
    alookup (syncStep now hashContent vars promptOverwrite true st
        template templateContent).state.files (outputPathFor template)
        = some (TemplateEngine.render vars templateContent) := by
  unfold syncStep
  simp only [hFile, hMod, hChoice]
  rw [renderAndTrack_eq]
  constructor
  · simp [alookup_setEntry_ne (setEntry st.files (outputPathFor template ++ ".backup") current)
      (outputPathFor template) (outputPathFor template ++ ".backup")
      (TemplateEngine.render vars templateContent) (append_backup_ne (outputPathFor template)),
      alookup_setEntry_self]
  · simp [alookup_setEntry_self]

/-- Witness for C8: destination "edited" differs from tracked fingerprint
"orig"; after the backup decision, the backup holds "edited" and the
destination the rendered template. -/
theorem syncStep_modified_backup_witness :
    alookup (syncStep "T" (fun s => s) [("NAME", "world")] (fun _ => Choice.backup) true
        ⟨[(".claude/commands/a.md", "edited")],
         MetaStore.stored ⟨"1.0.0", [(".claude/commands/a.md", ⟨"1.0.0", "orig", false, "t0"⟩)], []⟩⟩
        "a.md" "Hi {{NAME}}").state.files (outputPathFor "a.md" ++ ".backup")
        = some "edited" ∧
    alookup (syncStep "T" (fun s => s) [("NAME", "world")] (fun _ => Choice.backup) true
        ⟨[(".claude/commands/a.md", "edited")],
         MetaStore.stored ⟨"1.0.0", [(".claude/commands/a.md", ⟨"1.0.0", "orig", false, "t0"⟩)], []⟩⟩
        "a.md" "Hi {{NAME}}").state.files (outputPathFor "a.md")
        = some (TemplateEngine.render [("NAME", "world")] "Hi {{NAME}}") :=
  syncStep_modified_backup "T" (fun s => s) [("NAME", "world")] (fun _ => Choice.backup)
    ⟨[(".claude/commands/a.md", "edited")],
     MetaStore.stored ⟨"1.0.0", [(".claude/commands/a.md", ⟨"1.0.0", "orig", false, "t0"⟩)], []⟩⟩
    "a.md" "Hi {{NAME}}" "edited" (by decide) (by decide) (by decide)

/-! ## Claim C9: modified destination, skip decision; family-final variables write -/

/-- Claim C9: when a tracked destination is classified as modified and the
caller chooses skip, the candidate's processing returns the world state
unchanged (destination content and ledger entry untouched; skip is counted
as a normal skipped outcome, not an error); and, for every run, the final
act of `syncClaudeCommands` is a single ledger write that unconditionally
persists the variable set used for the run into the ledger's variables
field. -/
theorem syncStep_modified_skip_and_final_vars_write (now : String)
    (hashContent : String → String) (vars : List (String × String))
    (promptOverwrite : String → Choice) (st : SyncState)
    (template templateContent current : String) :
    (alookup st.files (outputPathFor template) = some current →
     FileTracker.isModified hashContent st (outputPathFor template) = true →
     promptOverwrite template = Choice.skip →
     syncStep now hashContent vars promptOverwrite true st template templateContent =
       ⟨st, StepOutcome.skippedFile, true⟩) ∧
    (∀ (promptedVariables : List (String × String)) (update : Bool)
       (templates : List (String × String)) (st0 : SyncState),
     (syncClaudeCommands now hashContent promptedVariables promptOverwrite update
         templates st0).store = MetaStore.stored
       { FileTracker.read st0.store with
           vars := if (FileTracker.read st0.store).vars.isEmpty then promptedVariables
                   else (FileTracker.read st0.store).vars }) := by
  constructor
  · intro hFile hMod hChoice
    unfold syncStep
    simp [hFile, hMod, hChoice]
  · intro promptedVariables update templates st0
    unfold syncClaudeCommands FileTracker.write
    rfl

/-- Witness for C9: a modified tracked destination with the skip decision
is left untouched, and a concrete run persists the prompted variables. -/
theorem syncStep_modified_skip_and_final_vars_write_witness :
    syncStep "T" (fun s => s) [("NAME", "world")] (fun _ => Choice.skip) true
        ⟨[(".claude/commands/a.md", "edited")],
         MetaStore.stored ⟨"1.0.0", [(".claude/commands/a.md", ⟨"1.0.0", "orig", false, "t0"⟩)], []⟩⟩
        "a.md" "Hi {{NAME}}" =
      ⟨⟨[(".claude/commands/a.md", "edited")],
        MetaStore.stored ⟨"1.0.0", [(".claude/commands/a.md", ⟨"1.0.0", "orig", false, "t0"⟩)], []⟩⟩,
       StepOutcome.skippedFile, true⟩ ∧
    (syncClaudeCommands "T" (fun s => s) [("NAME", "world")] (fun _ => Choice.skip) false
        [] ⟨[], MetaStore.absent⟩).store =
      MetaStore.stored
        { FileTracker.read (⟨[], MetaStore.absent⟩ : SyncState).store with
            vars := if (FileTracker.read (⟨[], MetaStore.absent⟩ : SyncState).store).vars.isEmpty
                    then [("NAME", "world")]
                    else (FileTracker.read (⟨[], MetaStore.absent⟩ : SyncState).store).vars } :=
  ⟨(syncStep_modified_skip_and_final_vars_write "T" (fun s => s) [("NAME", "world")]
      (fun _ => Choice.skip)
      ⟨[(".claude/commands/a.md", "edited")],
       MetaStore.stored ⟨"1.0.0", [(".claude/commands/a.md", ⟨"1.0.0", "orig", false, "t0"⟩)], []⟩⟩
      "a.md" "Hi {{NAME}}" "edited").1 (by decide) (by decide) (by decide),
   (syncStep_modified_skip_and_final_vars_write "T" (fun s => s) [("NAME", "world")]
      (fun _ => Choice.skip) ⟨[], MetaStore.absent⟩ "a.md" "Hi {{NAME}}" "edited").2
      [("NAME", "world")] false [] ⟨[], MetaStore.absent⟩⟩

/-! ## Claim C1: first sync and the family-final ledger write -/

/-- Claim C1 (code bug exhibited): first sync of a single template into an
empty project.  During the loop the candidate is rendered, written and
tracked (second conjunct: the per-candidate step leaves a ledger entry
whose fingerprint is the digest of the written content), but
`syncClaudeCommands` then executes its family-final write with the meta
object it read *before* the loop (sync.ts lines 86 and 166-168), so the
persisted ledger ends the run with no entry for the freshly synced path
(third conjunct), while the destination file does hold the rendered content
(first conjunct).  The claim's required post-state - a ledger entry whose
fingerprint matches the written content once the final write completes -
does not hold. -/
theorem syncClaudeCommands_final_write_loses_new_entry :
    alookup (syncClaudeCommands "2024-01-01T00:00:00.000Z" (fun s => s) [("NAME", "world")]
        (fun _ => Choice.skip) false [("a.md", "Hello {{NAME}}")]
        ⟨[], MetaStore.absent⟩).files ".claude/commands/a.md" = some "Hello world" ∧
    alookup (FileTracker.read (syncStep "2024-01-01T00:00:00.000Z" (fun s => s)
        [("NAME", "world")] (fun _ => Choice.skip) false ⟨[], MetaStore.absent⟩
        "a.md" "Hello {{NAME}}").state.store).synced ".claude/commands/a.md"
        = some ⟨TOOLKIT_VERSION, "Hello world", false, "2024-01-01T00:00:00.000Z"⟩ ∧
    alookup (FileTracker.read (syncClaudeCommands "2024-01-01T00:00:00.000Z" (fun s => s)
        [("NAME", "world")] (fun _ => Choice.skip) false [("a.md", "Hello {{NAME}}")]
        ⟨[], MetaStore.absent⟩).store).synced ".claude/commands/a.md" = none := by
  refine ⟨by decide, by decide, by decide⟩
